import Mathlib

/-!
Verification development for the async-tasks service (cyverse-de/async-tasks).

Shallow embedding conventions:
* `time.Time` values are modelled as `Int` nanoseconds.  The Go zero value of
  `time.Time` is modelled as `0`; real clock readings and server-assigned
  timestamps are positive.  `t.Before(u)` is `t < u`, `t.After(u)` is `u < t`,
  `t.Add(d)` is `t + d`.
* `context.Context` is modelled by a single `Bool` saying whether the context
  has been canceled; `context.Background()` is the never-canceled context,
  i.e. the literal `false`.
* The `database` package of the repository is not part of the sources under
  inspection; its operations (`InsertTask`, `InsertTaskStatus`,
  `CompleteTask`, `DeleteTask`, `GetTasksByFilter`) are modelled from the
  spec's Task Store contract (section 4.1) and are assumed to succeed when
  their preconditions hold, which is the reliable-store reading used
  throughout.  Definitions so modelled carry a doc comment saying so.
-/

/-! ## Data model (src/model/model.go) -/

/-- `model.AsyncTaskStatus`: one status update of a task. -/
structure AsyncTaskStatus where
  status : String
  detail : String
  createdDate : Int
deriving DecidableEq, Repr

/-- `model.AsyncTaskBehavior`: one behavior row attached to a task.  The
free-form `Data` map is not carried here; the statuschangetimeout section
below models the decoded shape of the only payload the core interprets. -/
structure AsyncTaskBehavior where
  behaviorType : String
deriving DecidableEq, Repr

/-- `model.AsyncTask`: a task row together with its (loaded) children.
The free-form `Data` map and the two `*Loaded` flags are not needed by any
claim and are omitted. -/
structure AsyncTask where
  id : String
  type : String
  username : String
  startDate : Option Int
  endDate : Option Int
  behaviors : List AsyncTaskBehavior
  statuses : List AsyncTaskStatus
deriving DecidableEq, Repr

/-! ## Mutual-exclusion protocol (src/updater.go) -/

/-- The projection of a marker task used by `checkOldest`: its id and its
(server-assigned, non-null) `start_date`. -/
structure MarkerTask where
  id : String
  startDate : Int
deriving DecidableEq, Repr

/-- The loop of `checkOldest` (src/updater.go lines 74-85).  State:
`oldestTime` (initialized by the caller to `time.Now()`, so never the nil
pointer; the `oldestTime == nil` disjunct of the Go condition is therefore
unreachable and `IsZero` is modelled as equality with `0`) and `isOldest`
(initialized to `true`).  On `task.StartDate.Before(*oldestTime)` both are
updated and the loop breaks as soon as `isOldest` becomes false. -/
def checkOldestLoop (taskID : String) : List MarkerTask → Int → Bool → Bool
  | [], _, isOldest => isOldest
  | task :: rest, oldestTime, isOldest =>
    if oldestTime = 0 ∨ task.startDate < oldestTime then
      if task.id = taskID then
        checkOldestLoop taskID rest task.startDate true
      else
        false
    else
      checkOldestLoop taskID rest oldestTime isOldest

/-- `checkOldest` (src/updater.go lines 55-92) as a function of the clock
reading `now` (`var t = time.Now()`, captured after the verify query), the
list of marker tasks returned by that query (ordered `start_date ASC` by the
store), and the claimed marker id.  `true` models the nil error return
("this replica wins"); `false` models the "not the oldest task of its type"
error. -/
def checkOldest (now : Int) (tasks : List MarkerTask) (taskID : String) : Bool :=
  checkOldestLoop taskID tasks now true

/-- One store-visible event of a tick attempt in `DoPeriodicUpdate`.  The
`Bool` on `runProcessor` and `completeMarker` records whether the context
passed to that step was canceled; `procErr` records whether the processor
returned an error. -/
inductive TickEvent where
  | insertMarker (id : String)
  | runProcessor (ctxCanceled : Bool) (procErr : Bool)
  | completeMarker (ctxCanceled : Bool) (id : String)
  | deleteMarker (id : String)
deriving DecidableEq, Repr

/-- The per-behavior-type goroutine body of `DoPeriodicUpdate`
(src/updater.go lines 151-179), as the sequence of store events it issues,
for an attempt whose marker insert succeeded with id `taskID` and whose
verify query returned `query` at clock reading `now`:

* `checkAlone` = insert the marker, then `checkOldest`;
* on a `checkOldest` failure the marker is deleted and the processor is not
  run (lines 158-167);
* on success, `finishTaskLogError` is deferred with `context.Background()`
  — modelled by the literal `false` (never canceled) — so the marker is
  completed after the processor returns, whatever the processor's outcome
  and however the tick context `ctxCanceled` stands (line 169), and the
  processor is run under the tick context (line 173). -/
def DoPeriodicUpdateAttempt (ctxCanceled : Bool) (now : Int)
    (query : List MarkerTask) (taskID : String) (procErr : Bool) : List TickEvent :=
  if checkOldest now query taskID then
    [TickEvent.insertMarker taskID,
     TickEvent.runProcessor ctxCanceled procErr,
     TickEvent.completeMarker false taskID]
  else
    [TickEvent.insertMarker taskID,
     TickEvent.deleteMarker taskID]

/-! ## HTTP request handlers (src/app.go)

Each handler is modelled as a pure function from its already-decoded inputs
(the JSON/transport layer is an external collaborator) to the HTTP-level
outcome it writes plus the list of store writes it issues inside its
transaction.  `errored`, `badRequest` and `notFound` (src/app.go lines
445-458) write 500, 400 and 404 respectively. -/

/-- The HTTP-level outcome a handler writes: `ok` is a 200 body,
`created` is 201, and the three error helpers of src/app.go map to
`badRequestResp` (400), `notFoundResp` (404) and `internalError` (500). -/
inductive HttpResult where
  | ok
  | created
  | badRequestResp
  | notFoundResp
  | internalError
deriving DecidableEq, Repr

/-- A write issued against the Task Store inside a handler's transaction. -/
inductive StoreWrite where
  | insertTaskW (task : AsyncTask)
  | insertStatusW (status : AsyncTaskStatus)
  | completeW (id : String)
  | deleteW (id : String)
deriving DecidableEq, Repr

/-- `CreateTaskRequest` (src/app.go lines 229-291) after JSON decoding
succeeded with payload `rawtask`: the four validation checks run in source
order and each rejection is written with `errored` (500) before the
transaction is even begun, so a rejected payload issues no store write.
A payload passing all checks is inserted and answered 201. -/
def CreateTaskRequest (rawtask : AsyncTask) : HttpResult × List StoreWrite :=
  if rawtask.type = ("") then
    (HttpResult.internalError, [])
  else if rawtask.behaviors.any (fun b => b.behaviorType = ("")) then
    (HttpResult.internalError, [])
  else if 1 < rawtask.statuses.length then
    (HttpResult.internalError, [])
  else
    match rawtask.statuses with
    | s0 :: _ =>
      if s0.status = ("") then (HttpResult.internalError, [])
      else (HttpResult.created, [StoreWrite.insertTaskW rawtask])
    | [] => (HttpResult.created, [StoreWrite.insertTaskW rawtask])

/-- `GetByIdRequest` (src/app.go lines 58-99) given the task value the store
returned for the id (`GetTask` signals "not found" by an empty-id task, per
the Task Store contract): the handler answers 404 on an empty id and the
JSON body otherwise. -/
def GetByIdRequest (fetched : AsyncTask) : HttpResult :=
  if fetched.id = ("") then HttpResult.notFoundResp else HttpResult.ok

/-- `AddStatusRequest` (src/app.go lines 293-369) given the task the store
returned for the URL id, the `complete` query flag, and the decoded status
payload.  After the existence check the payload is passed to

`InsertTaskStatus` — modelled from the spec: the Task Store's
`insert_task_status` (section 4.1) is an append-only insert that fails only
if the task does not exist (the task exists on this path), its
implementation living in the `database` package outside the inspected
sources — with no validation of the payload's `status` string, then the
task is optionally completed and the handler answers 201. -/
def AddStatusRequest (fetched : AsyncTask) (complete : Bool)
    (rawstatus : AsyncTaskStatus) : HttpResult × List StoreWrite :=
  if fetched.id = ("") then
    (HttpResult.notFoundResp, [])
  else if complete then
    (HttpResult.created, [StoreWrite.insertStatusW rawstatus, StoreWrite.completeW fetched.id])
  else
    (HttpResult.created, [StoreWrite.insertStatusW rawstatus])

/-! ## Duration strings (Go `time.ParseDuration`)

`time.ParseDuration` is Go standard library, modelled here for the fragment
the repository's behavior payloads use: an unsigned decimal integer count
followed by a unit, repeated (e.g. "1m", "90s", "1h30m"), plus the special
string "0".  Fractions, signs and the unicode µs alias are outside the
modelled fragment; every string outside the fragment parses to `none`
(Go would reject those among them that are genuinely malformed, such as a
missing unit, an unknown unit, or an empty string). -/

/-- Nanoseconds of one duration unit (`unitMap` of Go's time package,
restricted to ASCII unit names). -/
def unitNanos (u : String) : Option Int :=
  if u = ("ns") then some 1
  else if u = ("us") then some 1000
  else if u = ("ms") then some 1000000
  else if u = ("s") then some 1000000000
  else if u = ("m") then some 60000000000
  else if u = ("h") then some 3600000000000
  else none

/-- Value of a list of decimal digit characters. -/
def digitsVal (ds : List Char) : Int :=
  ds.foldl (fun a c => a * 10 + ((c.toNat : Int) - 48)) 0

/-- Parse a sequence of (digits, unit) pairs, summing the nanoseconds.
`fuel` bounds the recursion; each successful round consumes at least one
character so `fuel = length` is enough. -/
def parsePairs : Nat → List Char → Option Int
  | _, [] => some 0
  | 0, _ :: _ => none
  | Nat.succ fuel, c :: cs =>
    let digitsSplit := (c :: cs).span Char.isDigit
    if digitsSplit.1.isEmpty then none
    else
      let unitSplit := digitsSplit.2.span (fun ch => !ch.isDigit)
      if unitSplit.1.isEmpty then none
      else
        match unitNanos (String.mk unitSplit.1) with
        | none => none
        | some u =>
          match parsePairs fuel unitSplit.2 with
          | none => none
          | some rest => some (digitsVal digitsSplit.1 * u + rest)

/-- Go `time.ParseDuration` on the modelled fragment, in nanoseconds. -/
def parseDuration (s : String) : Option Int :=
  if s = ("0") then some 0
  else if s = ("") then none
  else parsePairs s.length s.data

/-! ## Status-change-timeout processor
(src/behaviors/statuschangetimeout/statuschangetimeout.go) -/

/-- `StatusChangeTimeoutData`: one decoded rule of a statuschangetimeout
behavior's `data["statuses"]` array. -/
structure StatusChangeTimeoutData where
  startStatus : String
  endStatus : String
  timeout : String
  complete : Bool
  delete : Bool
deriving DecidableEq, Repr

/-- One entry of the behavior's `data["statuses"]` array, as seen by the
per-datum loop: either `mapstructure.Decode` fails on it (`malformed`), or
it decodes to a rule. -/
inductive RuleDatum where
  | malformed
  | wellFormed (d : StatusChangeTimeoutData)
deriving DecidableEq, Repr

/-- One behavior row of a task, as read by `processSingleTask`:
`dataIsArray` is whether `behavior.Data["statuses"]` is an array
(line 68's type assertion), and `rules` its entries when it is. -/
structure BehaviorEntry where
  behaviorType : String
  dataIsArray : Bool
  rules : List RuleDatum
deriving DecidableEq, Repr

/-- The state of the one task row `processSingleTask` works on, together
with its children and a deletion flag for the effect of `DeleteTask`. -/
structure TaskState where
  id : String
  startDate : Int
  endDate : Option Int
  statuses : List AsyncTaskStatus
  behaviors : List BehaviorEntry
  deleted : Bool
deriving DecidableEq, Repr

/-- Modelled from the spec: the Task Store's `insert_task_status`
(section 4.1) appends the status row, the store assigning `created_date`
(here the transaction's clock reading `now`); the `database` package
implementing it is outside the inspected sources.  The processor inserts
`model.AsyncTaskStatus{Status: ...}`, so `detail` is empty. -/
def InsertTaskStatus (st : TaskState) (status : String) (now : Int) : TaskState :=
  { st with statuses := st.statuses ++ [⟨status, (""), now⟩] }

/-- Modelled from the spec: the Task Store's `complete_task` (section 4.1)
sets `end_date` to the current time if unset, leaving an already-set
`end_date` unchanged (the spec's first recommended reading); the `database`
package implementing it is outside the inspected sources. -/
def CompleteTask (st : TaskState) (now : Int) : TaskState :=
  match st.endDate with
  | none => { st with endDate := some now }
  | some e => { st with endDate := some e }

/-- Modelled from the spec: the Task Store's `delete_task` (section 4.1)
removes the task and cascades to its children; the `database` package
implementing it is outside the inspected sources. -/
def DeleteTask (st : TaskState) : TaskState :=
  { st with deleted := true }

/-- The comparison point computed at lines 50-61: with no statuses, the
task's `start_date` and the zero-value empty status; otherwise the loop
starting from the zero `time.Time` (modelled `0`) and empty string, taking
each status whose `created_date` is strictly `After` the accumulator. -/
def comparisonOf (t : TaskState) : Int × String :=
  if t.statuses.isEmpty then
    (t.startDate, (""))
  else
    t.statuses.foldl
      (fun acc s => if acc.1 < s.createdDate then (s.createdDate, s.status) else acc)
      (0, (""))

/-- The body of the per-datum loop (lines 74-121) for one entry of the
`data["statuses"]` array, at comparison point `cmp` and clock reading
`now`: a datum that fails to decode or whose timeout does not parse is
skipped (`continue`); otherwise, when
`comparisonTimestamp.Add(timeout).Before(time.Now())` and the comparison
status equals `start_status`, a status equal to `end_status` is inserted,
then the task is completed if `complete` is set, then deleted if `delete`
is set. -/
def applyDatum (cmp : Int × String) (now : Int) (st : TaskState) :
    RuleDatum → TaskState
  | RuleDatum.malformed => st
  | RuleDatum.wellFormed d =>
    match parseDuration d.timeout with
    | none => st
    | some timeout =>
      if cmp.1 + timeout < now ∧ cmp.2 = d.startStatus then
        let st1 := InsertTaskStatus st d.endStatus now
        let st2 := if d.complete then CompleteTask st1 now else st1
        if d.delete then DeleteTask st2 else st2
      else
        st

/-- The behavior loop (lines 65-123): each behavior of type
"statuschangetimeout" has its `data["statuses"]` entries folded through
`applyDatum`; a behavior of that type whose data is not an array makes the
whole call return an error (line 70), which rolls the transaction back —
modelled as `none`. -/
def runBehaviors (cmp : Int × String) (now : Int) :
    List BehaviorEntry → TaskState → Option TaskState
  | [], st => some st
  | b :: rest, st =>
    if b.behaviorType = ("statuschangetimeout") then
      if b.dataIsArray then
        runBehaviors cmp now rest (b.rules.foldl (applyDatum cmp now) st)
      else
        none
    else
      runBehaviors cmp now rest st

/-- `processSingleTask` (lines 29-131) on the task row `st` at clock
reading `now` (used both for the `Before(time.Now())` checks and as the
store's timestamp for rows inserted in this transaction): a canceled
context returns before beginning the transaction; an error from the
behavior loop abandons the transaction, which rolls back, leaving the task
as it was; otherwise the transaction commits.  Store operations themselves
are assumed to succeed (reliable store). -/
def processSingleTask (ctxCanceled : Bool) (now : Int) (st : TaskState) : TaskState :=
  if ctxCanceled then st
  else
    match runBehaviors (comparisonOf st) now st.behaviors st with
    | none => st
    | some st2 => st2

/-- `Processor` (lines 133-170) on the tasks returned by the
behavior-type filter query: each task is processed independently, an error
from `processSingleTask` being logged without stopping the scan (lines
163-166); a context canceled before the scan stops it (already-processed
tasks keep their committed transactions).  Cancellation mid-scan is a
real-time event not modelled beyond the all-or-nothing flag. -/
def Processor (ctxCanceled : Bool) (now : Int) (tasks : List TaskState) : List TaskState :=
  if ctxCanceled then tasks else tasks.map (processSingleTask false now)

/-- The single rule of the spec's status-change-timeout test scenario
(section 8): `{start_status:"", end_status:"done", timeout:"1m",
complete:true}`. -/
def scenarioRule : StatusChangeTimeoutData :=
  ⟨(""), ("done"), ("1m"), true, false⟩

/-- The spec's scenario task: `start_date = t0`, no statuses, one
statuschangetimeout behavior holding `scenarioRule`. -/
def scenarioTask (t0 : Int) : TaskState :=
  ⟨("task1"), t0, none, [],
   [⟨("statuschangetimeout"), true, [RuleDatum.wellFormed scenarioRule]⟩], false⟩

/-! ## Helper lemmas -/

/-- Once the running minimum is a nonzero time at or below every remaining
`start_date`, the rest of the `checkOldest` loop changes nothing. -/
theorem checkOldestLoop_stable (taskID : String) (l : List MarkerTask)
    (oldest : Int) (b : Bool) (h0 : oldest ≠ 0)
    (h : ∀ t ∈ l, oldest ≤ t.startDate) :
    checkOldestLoop taskID l oldest b = b := by
  induction l with
  | nil => rfl
  | cons t rest ih =>
    have ht : oldest ≤ t.startDate := h t (List.mem_cons_self t rest)
    have hcond : ¬ (oldest = 0 ∨ t.startDate < oldest) := by
      push_neg
      exact ⟨h0, ht⟩
    simp only [checkOldestLoop, if_neg hcond]
    exact ih fun x hx => h x (List.mem_cons_of_mem _ hx)

/-- The value of `checkOldest` on a list sorted ascending by `start_date`
with positive entries and a positive clock: the head alone decides. -/
theorem checkOldest_head (now : Int) (tasks : List MarkerTask) (taskID : String)
    (hsorted : tasks.Pairwise (fun a b => a.startDate ≤ b.startDate))
    (hnow : 0 < now) (hpos : ∀ t ∈ tasks, 0 < t.startDate) :
    checkOldest now tasks taskID =
      match tasks with
      | [] => true
      | t0 :: _ => decide (now ≤ t0.startDate) || decide (t0.id = taskID) := by
  cases tasks with
  | nil => rfl
  | cons t0 rest =>
    have hn0 : (now : Int) ≠ 0 := by omega
    have h0pos : 0 < t0.startDate := hpos t0 (List.mem_cons_self t0 rest)
    have hrest : ∀ x ∈ rest, t0.startDate ≤ x.startDate :=
      (List.pairwise_cons.mp hsorted).1
    by_cases hlt : t0.startDate < now
    · have hcond : (now = 0 ∨ t0.startDate < now) := Or.inr hlt
      simp only [checkOldest, checkOldestLoop, if_pos hcond]
      by_cases hid : t0.id = taskID
      · rw [if_pos hid,
          checkOldestLoop_stable taskID rest t0.startDate true (by omega) hrest]
        simp [hid, not_le.mpr hlt]
      · rw [if_neg hid]
        simp [hid, not_le.mpr hlt]
    · have hcond : ¬ (now = 0 ∨ t0.startDate < now) := by
        push_neg
        exact ⟨hn0, not_lt.mp hlt⟩
      simp only [checkOldest, checkOldestLoop, if_neg hcond]
      rw [checkOldestLoop_stable taskID rest now true hn0
          (fun x hx => le_trans (not_lt.mp hlt) (hrest x hx))]
      simp [not_lt.mp hlt]

/-- The comparison fold keeps a running maximum and, unless it never moved
off the zero accumulator, lands on one of the statuses. -/
theorem comparison_foldl (l : List AsyncTaskStatus) (acc : Int × String) :
    let r := l.foldl
      (fun acc s => if acc.1 < s.createdDate then (s.createdDate, s.status) else acc) acc
    (r = acc ∨ ∃ s ∈ l, r = (s.createdDate, s.status)) ∧
      acc.1 ≤ r.1 ∧ ∀ s ∈ l, s.createdDate ≤ r.1 := by
  induction l generalizing acc with
  | nil => exact ⟨Or.inl rfl, le_refl _, by simp⟩
  | cons s rest ih =>
    have step : ∀ a : Int × String,
        (if a.1 < s.createdDate then (s.createdDate, s.status) else a) = a ∨
        (if a.1 < s.createdDate then (s.createdDate, s.status) else a)
          = (s.createdDate, s.status) := by
      intro a
      by_cases h : a.1 < s.createdDate
      · exact Or.inr (if_pos h)
      · exact Or.inl (if_neg h)
    have hstep1 : acc.1 ≤ (if acc.1 < s.createdDate then (s.createdDate, s.status) else acc).1 := by
      by_cases h : acc.1 < s.createdDate
      · rw [if_pos h]; exact le_of_lt h
      · rw [if_neg h]
    have hstep2 : s.createdDate ≤ (if acc.1 < s.createdDate then (s.createdDate, s.status) else acc).1 := by
      by_cases h : acc.1 < s.createdDate
      · rw [if_pos h]
      · rw [if_neg h]; exact not_lt.mp h
    obtain ⟨hmem, hle, hall⟩ := ih (if acc.1 < s.createdDate then (s.createdDate, s.status) else acc)
    refine ⟨?_, le_trans hstep1 hle, ?_⟩
    · rcases hmem with h | ⟨x, hx, hr⟩
      · rcases step acc with ha | ha
        · exact Or.inl (by simp only [List.foldl_cons]; rw [h, ha])
        · exact Or.inr ⟨s, List.mem_cons_self s rest, by simp only [List.foldl_cons]; rw [h, ha]⟩
      · exact Or.inr ⟨x, List.mem_cons_of_mem _ hx, by simp only [List.foldl_cons]; exact hr⟩
    · intro x hx
      rcases List.mem_cons.mp hx with hx | hx
      · subst hx
        exact le_trans hstep2 hle
      · exact hall x hx

/-! ## Claims -/

/-- C1, counterexample: two concurrent claim attempts for the same behavior
type at effectively the same time — both markers carry the same
`start_date` (10), equal to the clock reading each replica's `checkOldest`
captures — make BOTH executions run the behavior processor, because
`task.StartDate.Before(*oldestTime)` is strict, so neither marker updates
the loop state and both replicas keep the initial `isOldest = true`.  The
claim says exactly one of the two proceeds. -/
theorem C1_both_attempts_run_processor :
    DoPeriodicUpdateAttempt false 10 [⟨("a"), 10⟩, ⟨("b"), 10⟩] ("a") false
      = [TickEvent.insertMarker ("a"), TickEvent.runProcessor false false,
         TickEvent.completeMarker false ("a")] ∧
    DoPeriodicUpdateAttempt false 10 [⟨("a"), 10⟩, ⟨("b"), 10⟩] ("b") false
      = [TickEvent.insertMarker ("b"), TickEvent.runProcessor false false,
         TickEvent.completeMarker false ("b")] := by
  decide

/-- C1 (amended): for two concurrent claim attempts for the same behavior
type whose markers `a` and `b` received distinct `start_date`s (`a`
earlier), with both verify queries returning both markers in ascending
order, the earlier `start_date` positive and strictly before both
replicas' clock readings, exactly one execution — the one that claimed
`a` — proceeds to run the behavior processor, and the other deletes its
marker task without running the processor. -/
theorem C1_mutual_exclusion_amended (a b : MarkerTask) (nowA nowB : Int)
    (ctxA ctxB procErrA procErrB : Bool)
    (hlt : a.startDate < b.startDate) (hposa : 0 < a.startDate)
    (hA : a.startDate < nowA) (hB : a.startDate < nowB) (hid : b.id ≠ a.id) :
    DoPeriodicUpdateAttempt ctxA nowA [a, b] a.id procErrA
      = [TickEvent.insertMarker a.id, TickEvent.runProcessor ctxA procErrA,
         TickEvent.completeMarker false a.id] ∧
    DoPeriodicUpdateAttempt ctxB nowB [a, b] b.id procErrB
      = [TickEvent.insertMarker b.id, TickEvent.deleteMarker b.id] := by
  have hne : a.startDate ≠ 0 := by omega
  have hwinA : checkOldest nowA [a, b] a.id = true := by
    have h1 : (nowA = 0 ∨ a.startDate < nowA) := Or.inr hA
    have h2 : ¬ (a.startDate = 0 ∨ b.startDate < a.startDate) := by
      push_neg
      exact ⟨hne, le_of_lt hlt⟩
    simp [checkOldest, checkOldestLoop, h1, h2]
  have hloseB : checkOldest nowB [a, b] b.id = false := by
    have h1 : (nowB = 0 ∨ a.startDate < nowB) := Or.inr hB
    have h3 : ¬ (a.id = b.id) := fun h => hid h.symm
    simp [checkOldest, checkOldestLoop, h1, h3]
  constructor
  · simp [DoPeriodicUpdateAttempt, hwinA]
  · simp [DoPeriodicUpdateAttempt, hloseB]

/-- C1 witness: a concrete instance of the amended mutual exclusion, with
markers at start dates 10 and 20 and clock readings 30 and 31. -/
theorem C1_mutual_exclusion_amended_witness :
    DoPeriodicUpdateAttempt false 30 [⟨("a"), 10⟩, ⟨("b"), 20⟩] ("a") false
      = [TickEvent.insertMarker ("a"), TickEvent.runProcessor false false,
         TickEvent.completeMarker false ("a")] ∧
    DoPeriodicUpdateAttempt true 31 [⟨("a"), 10⟩, ⟨("b"), 20⟩] ("b") true
      = [TickEvent.insertMarker ("b"), TickEvent.deleteMarker ("b")] :=
  C1_mutual_exclusion_amended ⟨("a"), 10⟩ ⟨("b"), 20⟩ 30 31 false true false true
    (by decide) (by decide) (by decide) (by decide) (by decide)

/-- C2, counterexample: with clock reading 10, claimed id "me" and the
verify query returning the single marker ⟨"other", 10⟩ (its `start_date`
lies in the trailing window), `checkOldest` declares the replica the
winner even though the earliest entry of the list does not carry the
claimed id: the strict `Before` comparison never fires when the earliest
`start_date` is not before the captured clock, so the initial
`isOldest = true` survives. -/
theorem C2_checkOldest_counterexample :
    checkOldest 10 [⟨("other"), 10⟩] ("me") = true ∧ ("other") ≠ ("me") := by
  decide

/-- C2 (amended): for a verify-query result sorted ascending by
`start_date`, with positive `start_date`s (server-assigned timestamps) and
a positive captured clock reading, `checkOldest` declares the replica the
winner if and only if the list is empty, or the earliest entry's
`start_date` is not strictly before the captured clock, or the earliest
entry carries the claimed id. -/
theorem C2_checkOldest_wins_iff (now : Int) (tasks : List MarkerTask) (taskID : String)
    (hsorted : tasks.Pairwise (fun a b => a.startDate ≤ b.startDate))
    (hnow : 0 < now) (hpos : ∀ t ∈ tasks, 0 < t.startDate) :
    checkOldest now tasks taskID = true ↔
      (tasks = [] ∨
        ∃ t0 rest, tasks = t0 :: rest ∧ (now ≤ t0.startDate ∨ t0.id = taskID)) := by
  rw [checkOldest_head now tasks taskID hsorted hnow hpos]
  cases tasks with
  | nil => simp
  | cons t0 rest =>
    simp only [Bool.or_eq_true, decide_eq_true_eq]
    constructor
    · intro h
      exact Or.inr ⟨t0, rest, rfl, h⟩
    · rintro (h | ⟨x, l, hxl, h⟩)
      · exact absurd h (List.cons_ne_nil _ _)
      · injection hxl with h1 h2
        subst h1
        exact h

/-- C2 witness: a concrete instance of the amended equivalence, on a
two-marker ascending list whose head carries the claimed id. -/
theorem C2_checkOldest_wins_iff_witness :
    checkOldest 100 [⟨("x"), 50⟩, ⟨("y"), 60⟩] ("x") = true ↔
      (([⟨("x"), 50⟩, ⟨("y"), 60⟩] : List MarkerTask) = [] ∨
        ∃ t0 rest, ([⟨("x"), 50⟩, ⟨("y"), 60⟩] : List MarkerTask) = t0 :: rest ∧
          (100 ≤ t0.startDate ∨ t0.id = ("x"))) :=
  C2_checkOldest_wins_iff 100 [⟨("x"), 50⟩, ⟨("y"), 60⟩] ("x")
    (by simp) (by decide) (by decide)

/-- C3: a tick attempt never leaves its marker in-progress on return: when
the attempt loses the oldest-claim check its events end with deleting the
marker and never run the processor; when it wins, the last event completes
the marker (sets `end_date`) for every processor outcome `procErr` and
every tick-context state `ctxCanceled`, and that completion runs under the
`context.Background()` context (the `false` in `completeMarker false`),
independent of the processor's context. -/
theorem C3_marker_finalized (ctxCanceled : Bool) (now : Int)
    (query : List MarkerTask) (taskID : String) (procErr : Bool) :
    (checkOldest now query taskID = true →
      DoPeriodicUpdateAttempt ctxCanceled now query taskID procErr
        = [TickEvent.insertMarker taskID, TickEvent.runProcessor ctxCanceled procErr,
           TickEvent.completeMarker false taskID]) ∧
    (checkOldest now query taskID = false →
      DoPeriodicUpdateAttempt ctxCanceled now query taskID procErr
        = [TickEvent.insertMarker taskID, TickEvent.deleteMarker taskID]) := by
  constructor <;> intro h <;> simp [DoPeriodicUpdateAttempt, h]

/-- C3 witness: with a canceled tick context and a failing processor the
winning attempt still completes its marker under the never-canceled
background context; a losing attempt deletes its marker without a
processor event. -/
theorem C3_marker_finalized_witness :
    DoPeriodicUpdateAttempt true 10 [⟨("m"), 5⟩] ("m") true
      = [TickEvent.insertMarker ("m"), TickEvent.runProcessor true true,
         TickEvent.completeMarker false ("m")] ∧
    DoPeriodicUpdateAttempt true 10 [⟨("x"), 5⟩, ⟨("m"), 6⟩] ("m") true
      = [TickEvent.insertMarker ("m"), TickEvent.deleteMarker ("m")] :=
  ⟨(C3_marker_finalized true 10 [⟨("m"), 5⟩] ("m") true).1 (by decide),
   (C3_marker_finalized true 10 [⟨("x"), 5⟩, ⟨("m"), 6⟩] ("m") true).2 (by decide)⟩

/-- The scenario rule's timeout "1m" parses to one minute of nanoseconds. -/
theorem parseDuration_one_minute : parseDuration ("1m") = some 60000000000 := by
  decide

/-- C4: for every rule whose timeout parses, the per-datum step fires
exactly when the comparison status equals `start_status` and the
comparison timestamp plus the timeout is before the clock: on firing it
appends a status equal to `end_status`, leaves `end_date` set when the
`complete` flag is set, and marks the task deleted when the `delete` flag
is set; otherwise it changes nothing.  In particular, on the spec's
scenario task (start date `t0`, no statuses, single rule
`{start_status:"", end_status:"done", timeout:"1m", complete:true}`)
running the processor at `t0` + 2 minutes appends status "done" and sets
`end_date` non-null, and running it at `t0` + 30 seconds changes
nothing. -/
theorem C4_rule_application :
    (∀ (cmp : Int × String) (now : Int) (st : TaskState)
        (d : StatusChangeTimeoutData) (timeout : Int),
      parseDuration d.timeout = some timeout →
        ((cmp.1 + timeout < now ∧ cmp.2 = d.startStatus →
            (applyDatum cmp now st (RuleDatum.wellFormed d)).statuses
                = st.statuses ++ [⟨d.endStatus, (""), now⟩] ∧
              (d.complete = true →
                (applyDatum cmp now st (RuleDatum.wellFormed d)).endDate ≠ none) ∧
              (d.delete = true →
                (applyDatum cmp now st (RuleDatum.wellFormed d)).deleted = true)) ∧
          (¬ (cmp.1 + timeout < now ∧ cmp.2 = d.startStatus) →
            applyDatum cmp now st (RuleDatum.wellFormed d) = st))) ∧
    (∀ t0 : Int,
      (processSingleTask false (t0 + 120000000000) (scenarioTask t0)).statuses
          = [⟨("done"), (""), t0 + 120000000000⟩] ∧
        (processSingleTask false (t0 + 120000000000) (scenarioTask t0)).endDate
          = some (t0 + 120000000000)) ∧
    (∀ t0 : Int,
      processSingleTask false (t0 + 30000000000) (scenarioTask t0) = scenarioTask t0) := by
  refine ⟨?_, ?_, ?_⟩
  · intro cmp now st d timeout hdur
    constructor
    · intro hfire
      refine ⟨?_, ?_, ?_⟩
      · simp only [applyDatum, hdur, if_pos hfire]
        cases hd : d.delete <;> cases hc : d.complete <;> cases he : st.endDate <;>
          simp [InsertTaskStatus, CompleteTask, DeleteTask, he]
      · intro hc
        simp only [applyDatum, hdur, if_pos hfire, hc]
        cases hd : d.delete <;> cases he : st.endDate <;>
          simp [InsertTaskStatus, CompleteTask, DeleteTask, he]
      · intro hdel
        simp only [applyDatum, hdur, if_pos hfire, hdel]
        cases hc : d.complete <;> cases he : st.endDate <;>
          simp [InsertTaskStatus, CompleteTask, DeleteTask, he]
    · intro hnot
      simp [applyDatum, hdur, hnot]
  · intro t0
    have hfire : t0 + 60000000000 < t0 + 120000000000 := by omega
    constructor <;>
      simp [processSingleTask, scenarioTask, scenarioRule, comparisonOf, runBehaviors,
        applyDatum, parseDuration_one_minute, hfire, InsertTaskStatus, CompleteTask]
  · intro t0
    have hnofire : ¬ (t0 + 60000000000 < t0 + 30000000000) := by omega
    simp [processSingleTask, scenarioTask, scenarioRule, comparisonOf, runBehaviors,
      applyDatum, parseDuration_one_minute, hnofire]

/-- C4 witness: the general rule-step part of C4 applied at the scenario
rule on a concrete comparison point and clock. -/
theorem C4_rule_application_witness :
    (applyDatum (0, ("")) 100000000000 (scenarioTask 0)
        (RuleDatum.wellFormed scenarioRule)).statuses
      = (scenarioTask 0).statuses ++ [⟨("done"), (""), 100000000000⟩] ∧
    (applyDatum (0, ("")) 100000000000 (scenarioTask 0)
        (RuleDatum.wellFormed scenarioRule)).endDate ≠ none := by
  have h := (C4_rule_application.1 (0, ("")) 100000000000 (scenarioTask 0)
    scenarioRule 60000000000 (by decide)).1 (by exact ⟨by decide, by decide⟩)
  exact ⟨h.1, h.2.1 rfl⟩

/-- C5: the comparison point of `processSingleTask`: a task with no
statuses compares against its `start_date` with the empty status;
otherwise (for server-assigned, positive `created_date`s) the comparison
point is one of the task's statuses, carrying a `created_date` at least
that of every status of the task. -/
theorem C5_comparison_point (t : TaskState)
    (hpos : ∀ s ∈ t.statuses, 0 < s.createdDate) :
    (t.statuses = [] → comparisonOf t = (t.startDate, (""))) ∧
    (t.statuses ≠ [] →
      ∃ s ∈ t.statuses,
        comparisonOf t = (s.createdDate, s.status) ∧
        ∀ s2 ∈ t.statuses, s2.createdDate ≤ s.createdDate) := by
  constructor
  · intro h
    simp [comparisonOf, h]
  · intro h
    obtain ⟨hmem, _, hall⟩ := comparison_foldl t.statuses (0, (""))
    have hne : ¬ t.statuses.isEmpty := by
      simpa [List.isEmpty_iff] using h
    rcases hmem with hr | ⟨s, hs, hr⟩
    · obtain ⟨s0, rest, h0⟩ := List.exists_cons_of_ne_nil h
      exfalso
      have hle := hall s0 (by rw [h0]; exact List.mem_cons_self _ _)
      rw [hr] at hle
      simp only [] at hle
      have hp := hpos s0 (by rw [h0]; exact List.mem_cons_self _ _)
      omega
    · refine ⟨s, hs, ?_, ?_⟩
      · simp only [comparisonOf, hne, Bool.false_eq_true, if_false]
        exact hr
      · intro s2 hs2
        have hle := hall s2 hs2
        rw [hr] at hle
        exact hle

/-- C5 witness: on a task with two statuses at created dates 5 and 9, the
comparison point is the status at 9. -/
theorem C5_comparison_point_witness :
    ∃ s ∈ (⟨("t"), 1, none, [⟨("a"), (""), 5⟩, ⟨("b"), (""), 9⟩], [], false⟩
        : TaskState).statuses,
      comparisonOf ⟨("t"), 1, none, [⟨("a"), (""), 5⟩, ⟨("b"), (""), 9⟩], [], false⟩
          = (s.createdDate, s.status) ∧
        ∀ s2 ∈ (⟨("t"), 1, none, [⟨("a"), (""), 5⟩, ⟨("b"), (""), 9⟩], [], false⟩
            : TaskState).statuses,
          s2.createdDate ≤ s.createdDate :=
  (C5_comparison_point _ (by decide)).2 (by decide)

/-- C6: on the spec's scenario task whose rule fires at `t0` + 2 minutes,
the first processor run appends "done" exactly once, and a second run
immediately after (at any clock reading `now2`) changes nothing: the
second run's comparison status is "done", which no longer matches the
rule's empty `start_status`. -/
theorem C6_second_run_no_change (t0 now2 : Int) (hpos : 0 < t0) :
    (processSingleTask false (t0 + 120000000000) (scenarioTask t0)).statuses
      = [⟨("done"), (""), t0 + 120000000000⟩] ∧
    processSingleTask false now2
        (processSingleTask false (t0 + 120000000000) (scenarioTask t0))
      = processSingleTask false (t0 + 120000000000) (scenarioTask t0) := by
  have hfire : t0 + 60000000000 < t0 + 120000000000 := by omega
  have hstate : processSingleTask false (t0 + 120000000000) (scenarioTask t0)
      = ⟨("task1"), t0, some (t0 + 120000000000),
         [⟨("done"), (""), t0 + 120000000000⟩],
         [⟨("statuschangetimeout"), true, [RuleDatum.wellFormed scenarioRule]⟩],
         false⟩ := by
    simp [processSingleTask, scenarioTask, scenarioRule, comparisonOf, runBehaviors,
      applyDatum, parseDuration_one_minute, hfire, InsertTaskStatus, CompleteTask]
  rw [hstate]
  refine ⟨rfl, ?_⟩
  have hcmp : (0 : Int) < t0 + 120000000000 := by omega
  have hne : ¬ (("done") = ("")) := by decide
  simp [processSingleTask, comparisonOf, runBehaviors, applyDatum,
    parseDuration_one_minute, scenarioRule, hcmp, hne]

/-- C6 witness: the idempotence instance at `t0 = 1` with the second run
half a minute after the first. -/
theorem C6_second_run_no_change_witness :
    (processSingleTask false ((1 : Int) + 120000000000) (scenarioTask 1)).statuses
      = [⟨("done"), (""), (1 : Int) + 120000000000⟩] ∧
    processSingleTask false 150000000001
        (processSingleTask false ((1 : Int) + 120000000000) (scenarioTask 1))
      = processSingleTask false ((1 : Int) + 120000000000) (scenarioTask 1) :=
  C6_second_run_no_change 1 150000000001 (by decide)

/-- C9: a datum `mapstructure.Decode` rejects, and a decoded rule whose
timeout does not parse, are skipped: folding the per-datum step over
`d :: rest` equals folding it over `rest` alone, so the remaining rules of
the task still apply; and the `Processor` scan processes the remaining
tasks of a cons independently of the outcome on the head task. -/
theorem C9_bad_rule_skipped (cmp : Int × String) (now : Int) (st : TaskState)
    (rest : List RuleDatum) (d : RuleDatum)
    (h : d = RuleDatum.malformed ∨
      ∃ x, d = RuleDatum.wellFormed x ∧ parseDuration x.timeout = none) :
    List.foldl (applyDatum cmp now) st (d :: rest)
        = List.foldl (applyDatum cmp now) st rest ∧
    (∀ (n : Int) (t : TaskState) (ts : List TaskState),
      Processor false n (t :: ts) = processSingleTask false n t :: Processor false n ts) := by
  constructor
  · rcases h with h | ⟨x, hx, hparse⟩
    · subst h
      simp [applyDatum]
    · subst hx
      simp [applyDatum, hparse]
  · intro n t ts
    simp [Processor]

/-- C9 witness: a rule with the unparsable timeout "bogus" is skipped. -/
theorem C9_bad_rule_skipped_witness :
    List.foldl (applyDatum (0, ("")) 10) (scenarioTask 0)
        [RuleDatum.wellFormed ⟨(""), ("x"), ("bogus"), false, false⟩]
      = List.foldl (applyDatum (0, ("")) 10) (scenarioTask 0) [] :=
  (C9_bad_rule_skipped (0, ("")) 10 (scenarioTask 0) []
    (RuleDatum.wellFormed ⟨(""), ("x"), ("bogus"), false, false⟩)
    (Or.inr ⟨⟨(""), ("x"), ("bogus"), false, false⟩, rfl, by decide⟩)).1

/-- C7: the create-task handler rejects every payload with an empty type,
more than one initial status, an initial status whose status string is
empty, or a behavior with an empty behavior type, and every such rejection
is answered before the transaction is begun, so no store write is
attempted and no partial row can be committed. -/
theorem C7_create_task_rejects (t : AsyncTask)
    (h : t.type = ("") ∨ (∃ b ∈ t.behaviors, b.behaviorType = ("")) ∨
      1 < t.statuses.length ∨
      ∃ s0 rest, t.statuses = s0 :: rest ∧ s0.status = ("")) :
    (CreateTaskRequest t).1 ≠ HttpResult.created ∧ (CreateTaskRequest t).2 = [] := by
  by_cases h1 : t.type = ("")
  · simp [CreateTaskRequest, h1]
  by_cases h2 : t.behaviors.any (fun b => b.behaviorType = (""))
  · simp [CreateTaskRequest, h1, h2]
  by_cases h3 : 1 < t.statuses.length
  · simp [CreateTaskRequest, h1, h2, h3]
  rcases h with h | h | h | ⟨s0, rest, hsr, hs0⟩
  · exact absurd h h1
  · obtain ⟨b, hb, hbt⟩ := h
    exact absurd (List.any_eq_true.mpr ⟨b, hb, by simp [hbt]⟩) h2
  · exact absurd h h3
  · simp [CreateTaskRequest, h1, h2, h3, hsr, hs0]

/-- C7 witness: the empty-type payload is rejected with no store write. -/
theorem C7_create_task_rejects_witness :
    (CreateTaskRequest ⟨(""), (""), (""), none, none, [], []⟩).1 ≠ HttpResult.created ∧
    (CreateTaskRequest ⟨(""), (""), (""), none, none, [], []⟩).2 = [] :=
  C7_create_task_rejects _ (Or.inl rfl)

/-- C8, counterexample: the create-task validation rejection for an empty
type is written with `errored`, i.e. with internal-failure severity (500),
not with the bad-input severity (400) of `badRequest` — so caller-visible
validation errors do not carry the bad-input severity the claim
requires. -/
theorem C8_validation_severity_counterexample :
    (CreateTaskRequest ⟨(""), (""), (""), none, none, [], []⟩).1
        = HttpResult.internalError ∧
      HttpResult.internalError ≠ HttpResult.badRequestResp := by
  decide

/-- C8 (amended): absent entities are reported with not-found severity,
but the create-task validation rejections are all reported with
internal-failure severity — the same severity as store failures — rather
than bad input; in this code the bad-input severity is reserved for the
missing-URL-id paths. -/
theorem C8_severity_amended :
    (∀ t : AsyncTask,
      t.type = ("") ∨ (∃ b ∈ t.behaviors, b.behaviorType = ("")) ∨
        1 < t.statuses.length ∨
        (∃ s0 rest, t.statuses = s0 :: rest ∧ s0.status = ("")) →
      (CreateTaskRequest t).1 = HttpResult.internalError) ∧
    (∀ fetched : AsyncTask, fetched.id = ("") →
      GetByIdRequest fetched = HttpResult.notFoundResp) := by
  constructor
  · intro t h
    by_cases h1 : t.type = ("")
    · simp [CreateTaskRequest, h1]
    by_cases h2 : t.behaviors.any (fun b => b.behaviorType = (""))
    · simp [CreateTaskRequest, h1, h2]
    by_cases h3 : 1 < t.statuses.length
    · simp [CreateTaskRequest, h1, h2, h3]
    rcases h with h | h | h | ⟨s0, rest, hsr, hs0⟩
    · exact absurd h h1
    · obtain ⟨b, hb, hbt⟩ := h
      exact absurd (List.any_eq_true.mpr ⟨b, hb, by simp [hbt]⟩) h2
    · exact absurd h h3
    · simp [CreateTaskRequest, h1, h2, h3, hsr, hs0]
  · intro fetched h
    simp [GetByIdRequest, h]

/-- C8 witness: a payload carrying an empty-typed behavior is answered
with internal-failure severity, and a store miss is answered not-found. -/
theorem C8_severity_amended_witness :
    (CreateTaskRequest ⟨(""), ("t"), (""), none, none, [⟨("")⟩], []⟩).1
        = HttpResult.internalError ∧
      GetByIdRequest ⟨(""), ("x"), (""), none, none, [], []⟩
        = HttpResult.notFoundResp :=
  ⟨C8_severity_amended.1 _ (Or.inr (Or.inl ⟨⟨("")⟩, List.mem_cons_self _ _, rfl⟩)),
   C8_severity_amended.2 _ rfl⟩

/-- C10: the append-status handler performs no validation of the status
string: on an existing task, the payload whose `status` field is empty is
inserted as-is and answered 201 Created, against the data model's
requirement that every TaskStatus carries a non-empty status string (a
requirement the create-task handler does enforce for the initial status,
see `CreateTaskRequest`). -/
theorem C10_empty_status_accepted :
    AddStatusRequest
        ⟨("11111111-1111-1111-1111-111111111111"), ("thing"), (""), some 5, none, [], []⟩
        false ⟨(""), (""), 0⟩
      = (HttpResult.created, [StoreWrite.insertStatusW ⟨(""), (""), 0⟩]) := by
  decide
